import Mathlib

/-!
Verification of `restore_session.py`.

The script holds a hard-coded table `structure` mapping tier names to lists
of folder names, then writes one archive entry per (tier, folder) pair into
`restored_flowlist.zip`, each at path `{tier}/{folder}.txt` with content
`"- [ ] Placeholder task"`, and finally prints `Created restored_flowlist.zip`.

Python dict literals preserve insertion order, so the table is embedded as an
ordered association list; the nested for-loop over `structure.items()` becomes
a left fold accumulating the `zf.writestr` calls in order.
-/

/-- The module-level dict `structure` from `restore_session.py`, lines 4-30,
as an ordered association list (Python dicts iterate in insertion order). -/
def structure_ : List (String × List String) :=
  [ ("S",
     [ "Learn Earn", "Productivity", "Outreach Playbook", "Motivation", "Flow",
       "The Grand Slam Offer", "Business Research", "Financial Urgent", "Work", "Finances" ]),
    ("A",
     [ "Next-Level Acceleration", "Tech Projects", "Game Development", "Lead Generation",
       "Research", "Relationship", "Content Creation" ]),
    ("B",
     [ "Website", "Domain Acquisition", "Podcasting", "BrandKit", "Productized Service",
       "Household & Maintenance", "Funnel & Tracking", "Health & Wellness", "Community Building",
       "Operations", "Personal Branding", "Reflection", "Personal Events", "Product Development" ]),
    ("C",
     [ "Fitness", "Wellness", "Streaming Setup", "App Mafia", "Lightmark.ai",
       "Social Media", "Code", "Luma Event", "Dental & Medical", "SEO",
       "Indiehacking", "Design", "SelfCare", "Content Strategy" ]),
    ("D",
     [ "Travel", "Content Curation", "Improv Setup", "Townhall" ]),
    ("F",
     [ "None", "Shopping & Errands", "NS Projects & Social", "Content Consumption",
       "Leisure", "Ns" ]) ]

/-- `zip_filename = "restored_flowlist.zip"` (line 32). -/
def zip_filename : String := "restored_flowlist.zip"

/-- The content written by every `zf.writestr(path, "- [ ] Placeholder task")` call
(line 40). -/
def placeholder : String := "- [ ] Placeholder task"

/-- The path format string of line 39: `path = f"{tier}/{folder}.txt"`. -/
def entryPath (tier folder : String) : String := tier ++ "/" ++ folder ++ ".txt"

/-- The nested write loop of lines 35-40: for each tier of the table in order,
for each folder of its list in order, append one (path, content) entry, in the
order the `zf.writestr` calls occur. -/
def writeLoop (tbl : List (String × List String)) : List (String × String) :=
  tbl.foldl
    (fun acc p =>
      p.2.foldl (fun acc2 folder => acc2 ++ [(entryPath p.1 folder, placeholder)]) acc)
    []

/-- The sequence of entries the produced archive contains, in write order. -/
def entries : List (String × String) := writeLoop structure_

/-- Modelled from the spec's words (section 4.1): "For each tier in TierTable,
in the table's defined order, for each folder in that tier's list, in list order,
writes one archive entry at path `{tier}/{folder}.txt`" — the direct flattening
of the table, used to compare against the source's fold `writeLoop`. -/
def flattenSpec (tbl : List (String × List String)) : List (String × String) :=
  tbl.flatMap (fun p => p.2.map (fun folder => (entryPath p.1 folder, placeholder)))

/-- The (tier, folder) pairs present in the table, in table order. -/
def tablePairs : List (String × String) :=
  structure_.flatMap (fun p => p.2.map (fun folder => (p.1, folder)))

/-- A filesystem abstraction for the run-twice claim: archive files by name. -/
def FS : Type := String → Option (List (String × String))

/-- One run of the script against a filesystem: `zipfile.ZipFile(zip_filename, 'w')`
creates or truncates the destination, the loop writes `entries` into it, and the
script prints `Created {zip_filename}`. Returns the updated filesystem and the
standard-output line. -/
def run (fs : FS) : FS × String :=
  (fun name => if name = zip_filename then some entries else fs name,
   "Created " ++ zip_filename)

/-- Error taxonomy of the spec, section 7: a single class `IOFailure`. -/
inductive ArchiveError : Type
  | IOFailure : ArchiveError
deriving DecidableEq

/-- The write loop with fallible writes: `writeOk path` says whether the
`zf.writestr` call at that path succeeds. A raised exception propagates out of
the `with` block, so the first failing write aborts the remaining writes. -/
def writeAll (writeOk : String → Bool) : List (String × String) → Except ArchiveError (List (String × String))
  | [] => Except.ok []
  | e :: rest =>
    if writeOk e.1 then
      match writeAll writeOk rest with
      | Except.ok es => Except.ok (e :: es)
      | Except.error err => Except.error err
    else Except.error ArchiveError.IOFailure

/-- One fallible run: `openOk` says whether `zipfile.ZipFile(zip_filename, 'w')`
succeeds, `writeOk` which writes succeed. On any failure the exception
propagates and the final `print` of line 42 never runs, so the list of printed
lines is empty; on success the archive holds the written entries and the single
line `Created {zip_filename}` is printed after the `with` block closes the file. -/
def buildRun (openOk : Bool) (writeOk : String → Bool) :
    Except ArchiveError (List (String × String)) × List String :=
  match (if openOk then writeAll writeOk entries else Except.error ArchiveError.IOFailure) with
  | Except.ok es => (Except.ok es, ["Created " ++ zip_filename])
  | Except.error err => (Except.error err, [])

theorem writeAll_all_ok (writeOk : String → Bool) :
    ∀ l : List (String × String), (∀ e ∈ l, writeOk e.1 = true) → writeAll writeOk l = Except.ok l := by
  intro l
  induction l with
  | nil => intro _; rfl
  | cons e rest ih =>
    intro h
    have he : writeOk e.1 = true := h e (List.mem_cons_self e rest)
    have hr : writeAll writeOk rest = Except.ok rest :=
      ih (fun x hx => h x (List.mem_cons_of_mem e hx))
    simp [writeAll, he, hr]

theorem writeAll_err (writeOk : String → Bool) :
    ∀ l : List (String × String), (∃ e ∈ l, writeOk e.1 = false) →
      writeAll writeOk l = Except.error ArchiveError.IOFailure := by
  intro l
  induction l with
  | nil => rintro ⟨e, he, _⟩; exact absurd he (List.not_mem_nil e)
  | cons e rest ih =>
    rintro ⟨x, hx, hxf⟩
    rcases List.mem_cons.mp hx with h1 | h2
    · subst h1
      simp [writeAll, hxf]
    · by_cases he : writeOk e.1 = true
      · have hr := ih ⟨x, h2, hxf⟩
        simp [writeAll, he, hr]
      · simp [writeAll, Bool.not_eq_true] at he ⊢
        simp [he]

theorem writeAll_ok_inv (writeOk : String → Bool) :
    ∀ l es, writeAll writeOk l = Except.ok es → es = l ∧ ∀ e ∈ l, writeOk e.1 = true := by
  intro l
  induction l with
  | nil =>
    intro es h
    simp [writeAll] at h
    exact ⟨h, by simp⟩
  | cons e rest ih =>
    intro es h
    by_cases he : writeOk e.1 = true
    · cases hr : writeAll writeOk rest with
      | ok es2 =>
        simp [writeAll, he, hr] at h
        rcases ih es2 hr with ⟨h1, h2⟩
        subst h1
        refine ⟨h.symm, ?_⟩
        intro x hx
        rcases List.mem_cons.mp hx with h3 | h4
        · subst h3; exact he
        · exact h2 x h4
      | error err =>
        simp [writeAll, he, hr] at h
    · simp [writeAll, he] at h

/-- C1 counterexample: the archive does not contain 51 entries — the spec's
sum miscounts tier S (which has 10 folders, not 6). -/
theorem entries_length_ne_51 : entries.length ≠ 51 := by decide

/-- C1 amended: for every run with the default hard-coded table, the produced
archive contains exactly 10 + 7 + 14 + 14 + 4 + 6 = 55 entries, which equals
the sum over all tiers of the length of that tier's folder list. -/
theorem entries_length_eq_55 :
    entries.length = 10 + 7 + 14 + 14 + 4 + 6 ∧
    entries.length = structure_.foldl (fun a p => a + p.2.length) 0 := by
  constructor <;> decide

/-- C2: the mapping from the (tier, folder) pairs of the table to archive entry
paths is a bijection onto the entries: the entry paths, in order, are exactly
the paths `tier ++ "/" ++ folder ++ ".txt"` of the table's pairs, and both the
pair list and the path list have no duplicates, so every pair yields exactly
one entry and no entry is duplicated or omitted. -/
theorem entries_paths_bijection :
    entries.map Prod.fst = tablePairs.map (fun q => entryPath q.1 q.2) ∧
    (entries.map Prod.fst).Nodup ∧ tablePairs.Nodup := by
  refine ⟨by decide, by decide, by decide⟩

/-- C3: every entry written to the archive has content exactly
`"- [ ] Placeholder task"`; reading an entry back yields that literal. -/
theorem entries_content_placeholder :
    ∀ e ∈ entries, e.2 = "- [ ] Placeholder task" := by decide

/-- Witness for C3 at the first entry written. -/
theorem entries_content_placeholder_witness :
    ("S/Learn Earn.txt", placeholder) ∈ entries ∧
    (("S/Learn Earn.txt", placeholder) : String × String).2 = "- [ ] Placeholder task" :=
  ⟨by decide, entries_content_placeholder ("S/Learn Earn.txt", placeholder) (by decide)⟩

/-- C4: the sequence of entries written is exactly the flattening of the table
in its defined order — the source's accumulating loop equals the spec-side
tier-by-tier, folder-by-folder flattening, with no other entries and no other
order. -/
theorem entries_eq_flatten : entries = flattenSpec structure_ := by decide

/-- C5: archive entry paths are unique — the paths derived from the table's
(tier, folder) pairs are pairwise distinct, hence so are the paths of the
written entries, and no tier's folder list contains a duplicate name. -/
theorem entry_paths_unique :
    (tablePairs.map (fun q => entryPath q.1 q.2)).Nodup ∧
    (entries.map Prod.fst).Nodup ∧
    ∀ p ∈ structure_, p.2.Nodup := by
  refine ⟨by decide, by decide, by decide⟩

/-- Witness for C5 at tier D. -/
theorem entry_paths_unique_witness :
    (("D", ["Travel", "Content Curation", "Improv Setup", "Townhall"]) : String × List String) ∈ structure_ ∧
    ((("D", ["Travel", "Content Curation", "Improv Setup", "Townhall"]) : String × List String)).2.Nodup :=
  ⟨by decide, entry_paths_unique.2.2 ("D", ["Travel", "Content Curation", "Improv Setup", "Townhall"]) (by decide)⟩

/-- C6: tier "S" of the table maps to a list containing "Learn Earn" and
"Work"; the archive contains entries at "S/Learn Earn.txt" and "S/Work.txt",
each with the placeholder content, and contains no entry at
"S/learn earn.txt" (path matching is case-sensitive). -/
theorem tier_S_entries :
    "Learn Earn" ∈ ((structure_.lookup "S").getD []) ∧
    "Work" ∈ ((structure_.lookup "S").getD []) ∧
    ("S/Learn Earn.txt", placeholder) ∈ entries ∧
    ("S/Work.txt", placeholder) ∈ entries ∧
    "S/learn earn.txt" ∉ entries.map Prod.fst := by
  refine ⟨by decide, by decide, by decide, by decide, by decide⟩

/-- C7: the builder is deterministic — running it twice against the same
output path stores the same entry sequence as running it once, prints the same
line, and after any run the archive at `zip_filename` holds exactly `entries`. -/
theorem run_deterministic :
    ∀ fs : FS,
      (run ((run fs).1)).1 zip_filename = (run fs).1 zip_filename ∧
      (run ((run fs).1)).2 = (run fs).2 ∧
      (run fs).1 zip_filename = some entries := by
  intro fs
  refine ⟨?_, rfl, ?_⟩ <;> simp [run]

/-- C8: if opening the archive fails or any entry write fails, the run fails
with IOFailure and the success line `Created restored_flowlist.zip` is not
printed; conversely the success line is printed only when the archive was
opened and every entry written, i.e. only after successful finalization. -/
theorem failure_no_success_message :
    ∀ (openOk : Bool) (writeOk : String → Bool),
      ((openOk = false ∨ ∃ e ∈ entries, writeOk e.1 = false) →
        (buildRun openOk writeOk).1 = Except.error ArchiveError.IOFailure ∧
        ("Created " ++ zip_filename) ∉ (buildRun openOk writeOk).2) ∧
      (("Created " ++ zip_filename) ∈ (buildRun openOk writeOk).2 →
        (buildRun openOk writeOk).1 = Except.ok entries ∧ ∀ e ∈ entries, writeOk e.1 = true) := by
  intro openOk writeOk
  constructor
  · rintro (hopen | hwrite)
    · subst hopen
      simp [buildRun]
    · cases openOk with
      | false => simp [buildRun]
      | true =>
        have herr := writeAll_err writeOk entries hwrite
        simp [buildRun, herr]
  · intro hmsg
    cases openOk with
    | false => simp [buildRun] at hmsg
    | true =>
      cases hw : writeAll writeOk entries with
      | ok es =>
        rcases writeAll_ok_inv writeOk entries es hw with ⟨h1, h2⟩
        subst h1
        exact ⟨by simp [buildRun, hw], h2⟩
      | error err =>
        simp [buildRun, hw] at hmsg

/-- Witness for C8: with a failing open, the run errors with IOFailure. -/
theorem failure_no_success_message_witness :
    (buildRun false (fun _ => true)).1 = Except.error ArchiveError.IOFailure ∧
    ("Created " ++ zip_filename) ∉ (buildRun false (fun _ => true)).2 :=
  (failure_no_success_message false (fun _ => true)).1 (Or.inl rfl)

/-- C9: the program takes no input — the output path is the fixed literal
`restored_flowlist.zip`, and the single standard-output line of every
successful run is exactly `Created restored_flowlist.zip`. -/
theorem fixed_output_name :
    zip_filename = "restored_flowlist.zip" ∧
    ∀ fs : FS, (run fs).2 = "Created restored_flowlist.zip" := by
  exact ⟨rfl, fun fs => rfl⟩

/-- C10: in the hard-coded table the per-tier folder counts are S: 10, A: 7,
B: 14, C: 14, D: 4, F: 6, so the archive has 10 + 7 + 14 + 14 + 4 + 6 = 55
entries. -/
theorem per_tier_counts :
    structure_.map (fun p => (p.1, p.2.length)) =
      [("S", 10), ("A", 7), ("B", 14), ("C", 14), ("D", 4), ("F", 6)] ∧
    entries.length = 55 := by
  constructor <;> decide
